import Mathlib

/-!
# A shallow embedding of the `claude-chat` React hook

This file embeds the session-state logic of `packages/react/src/useClaude.ts`
into Lean 4 and proves properties of it.

Modelling conventions:
* The hook's React `useState` cells and its `useRef` cells are both fields of
  one record `HookState`.  The source keeps *duplicated* copies of some values
  (a state cell read by the renderer plus a ref read by the handlers); the
  embedding keeps both copies (`streamingContent` / `streamingContentRef`,
  `completedTools` / `completedToolsRef`, `isStreaming` / `isStreamingRef`)
  because the source updates them independently.
* `Date.now()` is modelled as the constant `0` (timestamps never influence
  control flow in the source).
* `generateId()` is modelled by a fresh-id counter `nextId`; message ids are
  natural numbers.
* JSON payloads are modelled as typed records; a JSON key that may be absent
  becomes an `Option` field.  The runtime validators of `schemas.ts` only ever
  accept well-shaped payloads, which the typing makes intrinsic.
* The JS truthiness tests of the source (`if (!payload.content)`,
  `if (payload.currentSeq)`, `x || 'default'`) are modelled faithfully,
  including the fact that the empty string and the number 0 are falsy.
* Network and logging side effects (`ws.send`, `console.*`, the `onError`
  callback) are not part of the session state and are dropped.
-/

namespace ClaudeChat

/-- Connection status of one hook instance (`ConnectionStatus` in `types.ts`). -/
inductive ConnectionStatus where
  | disconnected
  | connecting
  | connected
  | reconnecting
deriving DecidableEq, Repr

/-- Message role. -/
inductive Role where
  | user
  | assistant
deriving DecidableEq, Repr

/-- Status of a todo item. -/
inductive TodoStatus where
  | pending
  | in_progress
  | completed
deriving DecidableEq, Repr

/-- A todo item (`TodoItem` in `types.ts`). -/
structure TodoItem where
  content : String
  status : TodoStatus
  activeForm : Option String := none
deriving DecidableEq, Repr

/-- Tool invocation data (`ToolUseData` in `types.ts`).  Optional fields model
JSON keys that may be absent from a payload. -/
structure ToolUseData where
  id : String
  name : String
  friendly : Option String := none
  inputDetail : Option String := none
  result : Option String := none
  summary : Option String := none
  error : Option String := none
  duration : Option Nat := none
  startTime : Option Nat := none
deriving DecidableEq, Repr

/-- A sealed content block: a text run or a group of tool invocations. -/
inductive ContentBlock where
  | text (content : String) (timestamp : Nat)
  | tool_group (tools : List ToolUseData) (timestamp : Nat)
deriving DecidableEq, Repr

/-- A chat message (`ChatMessage` in `types.ts`).  `isStreaming` is an optional
key in the source; user messages leave it absent. -/
structure ChatMessage where
  id : Nat
  role : Role
  content : String
  timestamp : Nat
  tools : Option (List ToolUseData) := none
  contentBlocks : Option (List ContentBlock) := none
  isStreaming : Option Bool := none
deriving DecidableEq, Repr

/-- Chat payload action tags (`ChatAction` in `types.ts`). -/
inductive ChatAction where
  | token
  | tool_start
  | tool_end
  | todo_update
  | thinking
  | complete
  | error
  | send
  | cancel
deriving DecidableEq, Repr

/-- A chat payload: the action tag plus the optional data keys the handlers
inspect. -/
structure ChatPayload where
  action : ChatAction
  content : Option String := none
  tool : Option ToolUseData := none
  todos : Option (List TodoItem) := none
  error : Option String := none
deriving DecidableEq, Repr

/-- The `chatState` carried by a snapshot system payload. -/
structure ChatState where
  status : String
  accumulatedContent : String
  tools : Option (List ToolUseData) := none
  todos : Option (List TodoItem) := none
deriving DecidableEq, Repr

/-- System payload action tags (`SystemAction` in `types.ts`). -/
inductive SystemAction where
  | connected
  | subscribe
  | catch_up
  | snapshot
  | error
deriving DecidableEq, Repr

mutual
/-- A wire envelope (`WebSocketMessage`): the `type` discriminator of the
source is fused with the payload as a sum; `timestamp` and the envelope-level
`sessionId` are never read by `handleMessage` and are omitted. -/
inductive Envelope : Type where
  | mk (seq : Nat) (payload : FramePayload)

/-- Either a chat payload or a system payload. -/
inductive FramePayload : Type where
  | chat (p : ChatPayload)
  | system (p : SystemPayload)

/-- A system payload.  `events` (of a snapshot) nests further envelopes, which
makes this a mutual inductive with `Envelope`. -/
inductive SystemPayload : Type where
  | mk (action : SystemAction) (currentSeq : Option Nat) (sessionId : Option String)
      (events : Option (List Envelope)) (chatState : Option ChatState)
      (error : Option String)
end

/-- Envelope sequence number. -/
def Envelope.seq : Envelope → Nat
  | .mk s _ => s

/-- Envelope payload. -/
def Envelope.payload : Envelope → FramePayload
  | .mk _ p => p

/-- The per-instance session state of `useClaude`: all `useState` cells and all
`useRef` cells that the message handlers touch. -/
structure HookState where
  status : ConnectionStatus
  sessionId : Option String
  error : Option String
  messages : List ChatMessage
  streamingContent : String
  activeTools : List ToolUseData
  completedTools : List ToolUseData
  todos : Option (List TodoItem)
  isStreaming : Bool
  lastSeq : Nat
  currentAssistantMessage : Option Nat
  streamingContentRef : String
  completedToolsRef : List ToolUseData
  isStreamingRef : Bool
  contentBlocks : List ContentBlock
  pendingText : String
  currentToolGroup : List ToolUseData
  nextId : Nat
deriving DecidableEq, Repr

/-- The state of a freshly mounted hook (no `sessionId` option supplied). -/
def initialState : HookState where
  status := .disconnected
  sessionId := none
  error := none
  messages := []
  streamingContent := ""
  activeTools := []
  completedTools := []
  todos := none
  isStreaming := false
  lastSeq := 0
  currentAssistantMessage := none
  streamingContentRef := ""
  completedToolsRef := []
  isStreamingRef := false
  contentBlocks := []
  pendingText := ""
  currentToolGroup := []
  nextId := 0

/-- JS `String.prototype.trim()`: strip leading and trailing whitespace
(defined structurally on the character list so that concrete runs compute). -/
def jsTrim (s : String) : String :=
  ⟨((s.data.dropWhile Char.isWhitespace).reverse.dropWhile Char.isWhitespace).reverse⟩

/-- JS `x || d` on an optional string: absent and empty strings are falsy. -/
def orDefault (s? : Option String) (d : String) : String :=
  match s? with
  | some s => if s = "" then d else s
  | none => d

/-- Handler for `token`: append to the pending text run and to the flat
accumulated streaming content (state cell and ref).
`if (!payload.content) return` drops both an absent and an empty content. -/
def handleTokenAction (p : ChatPayload) (s : HookState) : HookState :=
  match p.content with
  | none => s
  | some c =>
    if c = "" then s
    else
      { s with pendingText := s.pendingText ++ c
               streamingContent := s.streamingContent ++ c
               streamingContentRef := s.streamingContent ++ c }

/-- The flush of a non-whitespace pending text run into a sealed `text` block.
The source inlines this same code in `handleToolStartAction` and in
`handleCompleteAction`; it is factored here verbatim. -/
def flushPendingText (s : HookState) : HookState :=
  if jsTrim s.pendingText ≠ "" then
    { s with contentBlocks := s.contentBlocks ++ [.text s.pendingText 0]
             pendingText := "" }
  else s

/-- The flush of a non-empty current tool group into a sealed `tool_group`
block, as inlined in `handleToolEndAction` and `handleCompleteAction`. -/
def flushToolGroup (s : HookState) : HookState :=
  if s.currentToolGroup ≠ [] then
    { s with contentBlocks := s.contentBlocks ++ [.tool_group s.currentToolGroup 0]
             currentToolGroup := [] }
  else s

/-- Handler for `tool_start`: flush pending text, then add the tool to the
current tool group and to the active tools, each deduplicated by id. -/
def handleToolStartAction (p : ChatPayload) (s : HookState) : HookState :=
  match p.tool with
  | none => s
  | some tool =>
    let s := flushPendingText s
    let s :=
      if s.currentToolGroup.any (fun t => t.id = tool.id) then s
      else { s with currentToolGroup := s.currentToolGroup ++ [tool] }
    if s.activeTools.any (fun t => t.id = tool.id) then s
    else { s with activeTools := s.activeTools ++ [tool] }

/-- The object spread of the source's tool_end merge: keys present on the
incoming completion record overwrite the stored ones (`id` and `name` are
required keys and always overwrite; an optional key overwrites only when
present). -/
def mergeTool (t u : ToolUseData) : ToolUseData where
  id := u.id
  name := u.name
  friendly := u.friendly <|> t.friendly
  inputDetail := u.inputDetail <|> t.inputDetail
  result := u.result <|> t.result
  summary := u.summary <|> t.summary
  error := u.error <|> t.error
  duration := u.duration <|> t.duration
  startTime := u.startTime <|> t.startTime

/-- Handler for `tool_end`: merge the completion record into the matching
entry of the current tool group; remove the id from the active tools and, if
none remain while the group is non-empty, seal the group as a content block;
append the completed tool (deduplicated by id) to the completed tools. -/
def handleToolEndAction (p : ChatPayload) (s : HookState) : HookState :=
  match p.tool with
  | none => s
  | some tool =>
    let merged := s.currentToolGroup.map (fun t => if t.id = tool.id then mergeTool t tool else t)
    let s := { s with currentToolGroup := merged }
    let filtered := s.activeTools.filter (fun t => t.id ≠ tool.id)
    let s :=
      if filtered = [] ∧ s.currentToolGroup ≠ [] then
        { s with activeTools := filtered
                 contentBlocks := s.contentBlocks ++ [.tool_group s.currentToolGroup 0]
                 currentToolGroup := [] }
      else { s with activeTools := filtered }
    if s.completedTools.any (fun t => t.id = tool.id) then s
    else
      { s with completedTools := s.completedTools ++ [tool]
               completedToolsRef := s.completedTools ++ [tool] }

/-- Handler for `todo_update`: wholesale replacement when the key is present
(an empty array is truthy in JS and does replace). -/
def handleTodoUpdateAction (p : ChatPayload) (s : HookState) : HookState :=
  match p.todos with
  | some td => { s with todos := some td }
  | none => s

/-- Reset all streaming state to initial values. -/
def resetStreamingState (s : HookState) : HookState :=
  { s with streamingContent := ""
           streamingContentRef := ""
           activeTools := []
           completedTools := []
           completedToolsRef := []
           contentBlocks := []
           pendingText := ""
           currentToolGroup := []
           currentAssistantMessage := none }

/-- `findIndex` followed by an in-place copy-update of the found element,
expressed as a first-match update returning `none` when no element matches. -/
def updateFirst? {α : Type} (p : α → Bool) (f : α → α) : List α → Option (List α)
  | [] => none
  | x :: xs => if p x then some (f x :: xs) else (updateFirst? p f xs).map (x :: ·)

/-- Handler for `complete`: stop streaming, flush any pending text and any
open tool group, then overwrite the placeholder assistant message (found by id
first, falling back to any message still marked streaming) with the final
content, tools and content blocks; if none is found but accumulated data
exists, synthesize a new assistant message.  Finally reset all turn buffers. -/
def handleCompleteAction (s : HookState) : HookState :=
  let s := { s with isStreaming := false, isStreamingRef := false }
  let s := flushPendingText s
  let s := flushToolGroup s
  let finalContent := s.streamingContentRef
  let finalTools := s.completedToolsRef
  let finalBlocks := s.contentBlocks
  let upd := fun (m : ChatMessage) =>
    { m with content := finalContent
             tools := some finalTools
             contentBlocks := some finalBlocks
             isStreaming := some false }
  let s :=
    match updateFirst? (fun m => s.currentAssistantMessage == some m.id) upd s.messages with
    | some ms => { s with messages := ms }
    | none =>
      match updateFirst? (fun m => m.isStreaming == some true) upd s.messages with
      | some ms => { s with messages := ms }
      | none =>
        if finalContent ≠ "" ∨ finalTools ≠ [] ∨ finalBlocks ≠ [] then
          { s with
              messages := s.messages ++
                [{ id := s.nextId, role := .assistant, content := finalContent,
                   timestamp := 0, tools := some finalTools,
                   contentBlocks := some finalBlocks, isStreaming := some false }],
              nextId := s.nextId + 1 }
        else s
  resetStreamingState s

/-- Handler for a chat `error`: stop streaming, surface the error message and
reset the turn buffers.  The message history is not touched. -/
def handleErrorAction (p : ChatPayload) (s : HookState) : HookState :=
  let s := { s with isStreaming := false
                    isStreamingRef := false
                    error := some (orDefault p.error "Unknown error") }
  resetStreamingState s

/-- Route a chat payload to its handler.  `thinking` is accepted with no state
change; the outbound-only `send`/`cancel` tags are accepted as no-ops. -/
def handleChatPayload (p : ChatPayload) (s : HookState) : HookState :=
  match p.action with
  | .token => handleTokenAction p s
  | .tool_start => handleToolStartAction p s
  | .tool_end => handleToolEndAction p s
  | .todo_update => handleTodoUpdateAction p s
  | .thinking => s
  | .complete => handleCompleteAction s
  | .error => handleErrorAction p s
  | .send => s
  | .cancel => s

/-- Handler for the system `connected` action: a *truthy* `currentSeq` (present
and non-zero) overwrites the tracked `lastSeq` ref. -/
def handleConnectedAction (currentSeq : Option Nat) (s : HookState) : HookState :=
  match currentSeq with
  | some n => if n ≠ 0 then { s with lastSeq := n } else s
  | none => s

/-- The second half of `handleSnapshotAction`: apply the snapshot's
`chatState`.  When the status is `streaming` the accumulated content is
restored (into the state cell only — the ref copy is not written by the
source) and streaming is seeded; `tools` and `todos` are restored whenever
present, regardless of status (again into the state cells only). -/
def applyChatState (cs : ChatState) (s : HookState) : HookState :=
  let s :=
    if cs.status = "streaming" then
      { s with isStreaming := true
               isStreamingRef := true
               streamingContent := cs.accumulatedContent }
    else s
  let s :=
    match cs.tools with
    | some ts => { s with completedTools := ts }
    | none => s
  match cs.todos with
  | some td => { s with todos := td }
  | none => s

mutual
/-- Handle one inbound envelope (`handleMessage` in the source): raise
`lastSeq` to the envelope's `seq` if larger, then dispatch on the payload
kind.  JSON parsing is modelled as the identity on well-typed envelopes and
the runtime payload validators always succeed on them. -/
def handleMessage (e : Envelope) (s : HookState) : HookState :=
  match e with
  | .mk seq payload =>
    let s := if s.lastSeq < seq then { s with lastSeq := seq } else s
    match payload with
    | .chat p => handleChatPayload p s
    | .system p => handleSystemPayload p s
termination_by sizeOf e

/-- Route a system payload to its handler; inbound `subscribe`/`catch_up` are
accepted as no-ops. -/
def handleSystemPayload (p : SystemPayload) (s : HookState) : HookState :=
  match p with
  | .mk action currentSeq sessionId events chatState err =>
    match action with
    | .connected => handleConnectedAction currentSeq s
    | .snapshot => handleSnapshotAction sessionId events chatState s
    | .error => { s with error := some (orDefault err "System error") }
    | .subscribe => s
    | .catch_up => s
termination_by sizeOf p

/-- Handler for the system `snapshot` action: set the session id when given,
replay each buffered envelope through `handleMessage`, then apply the
`chatState`. -/
def handleSnapshotAction (sessionId : Option String) (events : Option (List Envelope))
    (chatState : Option ChatState) (s : HookState) : HookState :=
  let s :=
    match sessionId with
    | some sid => { s with sessionId := some sid }
    | none => s
  let s :=
    match events with
    | some es => replayEvents es s
    | none => s
  match chatState with
  | some cs => applyChatState cs s
  | none => s
termination_by sizeOf events

/-- Replay a list of buffered envelopes in order through `handleMessage`
(the `for` loop of `handleSnapshotAction`). -/
def replayEvents (es : List Envelope) (s : HookState) : HookState :=
  match es with
  | [] => s
  | e :: rest => replayEvents rest (handleMessage e s)
termination_by sizeOf es
end

/-- The public `send(content)` operation.  `connected` stands for
`isSharedWebSocketConnected(url)` at call time.  A disconnected send only sets
the error state; a send during streaming is silently dropped; otherwise the
user message and the streaming placeholder are appended together, the
streaming buffers reset, and the frame transmitted (a network effect outside
the session state). -/
def send (connected : Bool) (content : String) (s : HookState) : HookState :=
  if ¬ connected then { s with error := some "Not connected" }
  else if s.isStreamingRef then s
  else
    let userMessage : ChatMessage :=
      { id := s.nextId, role := .user, content := content, timestamp := 0 }
    let assistantId := s.nextId + 1
    { s with isStreaming := true
             isStreamingRef := true
             streamingContent := ""
             streamingContentRef := ""
             activeTools := []
             completedTools := []
             completedToolsRef := []
             error := none
             currentAssistantMessage := some assistantId
             messages := s.messages ++
               [userMessage,
                { id := assistantId, role := .assistant, content := "", timestamp := 0,
                  isStreaming := some true }]
             nextId := s.nextId + 2 }

/-- The public `clearMessages()` operation: exactly the six setter calls of
the source.  The ref-side turn buffers and the connection status are not
touched. -/
def clearMessages (s : HookState) : HookState :=
  { s with messages := []
           streamingContent := ""
           activeTools := []
           completedTools := []
           todos := none
           error := none }

/-! ## The shared connection manager (module-level singleton per URL) -/

/-- `RECONNECT_DELAY` (ms). -/
def RECONNECT_DELAY : Nat := 2000

/-- `MAX_RECONNECT_ATTEMPTS`. -/
def MAX_RECONNECT_ATTEMPTS : Nat := 10

/-- The shared per-URL socket state.  The `WebSocket` object and its listener
sets are abstracted to what the close handler reads: whether a socket exists
and is open, and the number of registered frame listeners. -/
structure SharedWebSocketState where
  wsOpen : Bool
  connecting : Bool
  reconnectTimeoutPending : Bool
  reconnectAttempts : Nat
  subscribedSession : Option String
  messageListeners : Nat
deriving DecidableEq, Repr

/-- The `ws.onclose` handler of `createSharedWebSocket`: clear the socket,
then — if at least one frame listener remains and the attempts counter is
below the budget — increment the counter and schedule a reconnect after
`RECONNECT_DELAY * min(attempts, 5)`.  Returns the new state together with
the scheduled delay, `none` when no timer was scheduled. -/
def onClose (st : SharedWebSocketState) : SharedWebSocketState × Option Nat :=
  let st := { st with wsOpen := false, connecting := false, subscribedSession := none }
  if 0 < st.messageListeners ∧ st.reconnectAttempts < MAX_RECONNECT_ATTEMPTS then
    let attempts := st.reconnectAttempts + 1
    let delay := RECONNECT_DELAY * min attempts 5
    ({ st with reconnectAttempts := attempts, reconnectTimeoutPending := true }, some delay)
  else (st, none)

/-! ## Definitions modelled from the spec's words (for the refinement claim) -/

/-- Modelled from the spec (claim C3 and section 4.4; the override algorithm
itself is not spelled out in code terms by the spec): the chatState override
in which the snapshot's `accumulatedContent`, `tools` and `todos` values win
over any state reconstructed from the replayed events, and streaming is
seeded when the status indicates the turn was mid-stream. -/
def chatStateOverrideSpec (cs : ChatState) (s : HookState) : HookState :=
  let s :=
    if cs.status = "streaming" then { s with isStreaming := true, isStreamingRef := true }
    else s
  let s := { s with streamingContent := cs.accumulatedContent }
  let s :=
    match cs.tools with
    | some ts => { s with completedTools := ts }
    | none => s
  match cs.todos with
  | some td => { s with todos := td }
  | none => s

/-- Modelled from the spec (claim C3): deliver the N buffered envelopes live
through the message handler, then apply the chatState override in which the
snapshot's values win. -/
def snapshotSpec (sessionId : Option String) (events : Option (List Envelope))
    (chatState : Option ChatState) (s : HookState) : HookState :=
  let s :=
    match sessionId with
    | some sid => { s with sessionId := some sid }
    | none => s
  let s :=
    match events with
    | some es => es.foldl (fun st e => handleMessage e st) s
    | none => s
  match chatState with
  | some cs => chatStateOverrideSpec cs s
  | none => s

/-- The snapshot handler's observable behaviour restated with the code's own
override (`applyChatState`) and a left fold for the replay loop; used for the
amended form of claim C3. -/
def snapshotReplayed (sessionId : Option String) (events : Option (List Envelope))
    (chatState : Option ChatState) (s : HookState) : HookState :=
  let s :=
    match sessionId with
    | some sid => { s with sessionId := some sid }
    | none => s
  let s :=
    match events with
    | some es => es.foldl (fun st e => handleMessage e st) s
    | none => s
  match chatState with
  | some cs => applyChatState cs s
  | none => s

/-! ## Auxiliary definitions for stating the claims -/

mutual
/-- `true` when the envelope contains no system `connected` frame carrying a
truthy (non-zero) `currentSeq` — not even nested inside a snapshot's buffered
events. -/
def envNoSeqOverride : Envelope → Bool
  | .mk _ (.chat _) => true
  | .mk _ (.system p) => sysNoSeqOverride p

/-- List version of `envNoSeqOverride` for a snapshot's buffered events. -/
def sysNoSeqOverride : SystemPayload → Bool
  | .mk .connected currentSeq _ _ _ _ =>
      match currentSeq with
      | some n => n = 0
      | none => true
  | .mk .snapshot _ _ events _ _ =>
      match events with
      | some es => eventsNoSeqOverride es
      | none => true
  | .mk _ _ _ _ _ _ => true

/-- `envNoSeqOverride` over a list of envelopes. -/
def eventsNoSeqOverride : List Envelope → Bool
  | [] => true
  | e :: rest => envNoSeqOverride e && eventsNoSeqOverride rest
end

/-- A public-operation trace element for the at-most-one-streaming claim:
`send` (with the connectivity observed at call time), an inbound `complete`,
or an inbound `error`. -/
inductive SessionOp where
  | sendOp (connected : Bool) (content : String)
  | completeOp
  | errorOp (err : Option String)
deriving DecidableEq, Repr

/-- Apply one public operation. -/
def applyOp (s : HookState) (op : SessionOp) : HookState :=
  match op with
  | .sendOp c content => send c content s
  | .completeOp => handleCompleteAction s
  | .errorOp e => handleErrorAction { action := .error, error := e } s

/-- Run a trace of public operations. -/
def runOps (ops : List SessionOp) (s : HookState) : HookState :=
  ops.foldl applyOp s

/-- Run a list of chat payloads through the chat dispatcher. -/
def runChat (ps : List ChatPayload) (s : HookState) : HookState :=
  ps.foldl (fun st p => handleChatPayload p st) s

/-- The number of messages currently marked streaming. -/
def streamingCount (s : HookState) : Nat :=
  (s.messages.filter (fun m => m.isStreaming == some true)).length

/-- A `token` chat payload. -/
def tokenEv (c : String) : ChatPayload := { action := .token, content := some c }

/-- A `tool_start` chat payload. -/
def startEv (t : ToolUseData) : ChatPayload := { action := .tool_start, tool := some t }

/-- A `tool_end` chat payload. -/
def endEv (t : ToolUseData) : ChatPayload := { action := .tool_end, tool := some t }

/-- A `complete` chat payload. -/
def completeEv : ChatPayload := { action := .complete }

/-- Ids of a tool list. -/
def toolIds (l : List ToolUseData) : List String := l.map (fun t => t.id)

/-- Well-formedness of a sealed content block for the id-uniqueness claim:
tool groups carry pairwise-distinct tool ids. -/
def blockIdsOk : ContentBlock → Prop
  | .text _ _ => True
  | .tool_group ts _ => (toolIds ts).Nodup

/-- The id-uniqueness invariant of the stream accumulator: the active tool
group and every sealed tool group carry each id at most once. -/
def ToolInv (s : HookState) : Prop :=
  (toolIds s.currentToolGroup).Nodup ∧ ∀ b ∈ s.contentBlocks, blockIdsOk b

/-- Whether a trace operation is an inbound chat `error`. -/
def SessionOp.isError : SessionOp → Bool
  | .errorOp _ => true
  | _ => false

/-- A message not marked streaming (`isStreaming` absent, `false`, or absent
key). -/
def NotStreamingMsg (m : ChatMessage) : Prop := m.isStreaming ≠ some true

/-- The reachable-state invariant behind the at-most-one-streaming claim:
message ids are below the fresh-id counter and, depending on the streaming
ref, either no message is marked streaming (and no placeholder id is
tracked), or the last message is the unique streaming placeholder and its id
is the tracked one. -/
def C4Inv (s : HookState) : Prop :=
  (∀ m ∈ s.messages, m.id < s.nextId) ∧
  (s.isStreamingRef = false →
    s.currentAssistantMessage = none ∧ ∀ m ∈ s.messages, NotStreamingMsg m) ∧
  (s.isStreamingRef = true →
    ∃ mid ms m0, s.currentAssistantMessage = some mid ∧
      s.messages = ms ++ [m0] ∧ m0.isStreaming = some true ∧ m0.id = mid ∧
      ∀ m ∈ ms, NotStreamingMsg m ∧ m.id ≠ mid)

/-- A sample tool invocation (used for concrete scenario runs). -/
def sampleTool : ToolUseData := { id := "t1", name := "Read" }

/-- The completion record for `sampleTool` carrying a duration. -/
def sampleToolDone : ToolUseData := { id := "t1", name := "Read", duration := some 12 }

/-- A sample shared-socket state: one listener, two reconnect attempts so
far. -/
def sampleSocketState : SharedWebSocketState :=
  { wsOpen := true, connecting := false, reconnectTimeoutPending := false,
    reconnectAttempts := 2, subscribedSession := none, messageListeners := 1 }

/-- Run a list of envelopes from the initial state (a sequence of inbound
frames handled live). -/
def runFrames (es : List Envelope) : HookState :=
  es.foldl (fun st e => handleMessage e st) initialState

/-- Concatenation of the contents of the `text` blocks of a block list. -/
def textConcat (bs : List ContentBlock) : String :=
  bs.foldl
    (fun acc b =>
      match b with
      | .text c _ => acc ++ c
      | .tool_group _ _ => acc) ""

/-! ## Helper lemmas -/

theorem replayEvents_eq_foldl (es : List Envelope) (s : HookState) :
    replayEvents es s = es.foldl (fun st e => handleMessage e st) s := by
  induction es generalizing s with
  | nil => simp [replayEvents]
  | cons e rest ih => simp [replayEvents, ih]

/-! ## Claim C7: reconnect scheduling on close -/

/-- C7: on every close of an open connection, a reconnect timer is scheduled
iff at least one frame listener remains and the attempt counter has not
reached the retry budget, and the scheduled delay equals the base delay
multiplied by the incremented attempt counter capped at 5 (the stored counter
being the incremented one). -/
theorem reconnect_schedule (st : SharedWebSocketState) :
    ((onClose st).2.isSome ↔
        0 < st.messageListeners ∧ st.reconnectAttempts < MAX_RECONNECT_ATTEMPTS) ∧
    (∀ d, (onClose st).2 = some d →
        d = RECONNECT_DELAY * min (st.reconnectAttempts + 1) 5 ∧
        (onClose st).1.reconnectAttempts = st.reconnectAttempts + 1) := by
  unfold onClose
  dsimp only
  split <;> simp_all

/-- Witness for `reconnect_schedule` at a concrete socket state. -/
theorem reconnect_schedule_witness :
    (onClose sampleSocketState).2 = some 6000 ∧
    (6000 = RECONNECT_DELAY * min (sampleSocketState.reconnectAttempts + 1) 5 ∧
      (onClose sampleSocketState).1.reconnectAttempts =
        sampleSocketState.reconnectAttempts + 1) :=
  ⟨by decide, (reconnect_schedule sampleSocketState).2 6000 (by decide)⟩

/-! ## Claim C8: clearMessages -/

/-- C8 counterexample: `clearMessages` does *not* reset all turn buffers — the
ref-side buffers (pending text, content blocks, current tool group) are left
untouched, shown here on a state with one pending token. -/
theorem clearMessages_cex :
    ¬ ∀ s : HookState,
        (clearMessages s).pendingText = "" ∧ (clearMessages s).contentBlocks = [] ∧
        (clearMessages s).currentToolGroup = [] := by
  intro h
  have := (h (runChat [tokenEv "x"] (send true "hi" initialState))).1
  exact absurd this (by decide)

/-- C8 (amended): `clearMessages` resets the message history and the published
state cells (flat streaming text, active tools, completed tools, todos,
error) and leaves everything else — the connection status, the streaming
flags and all ref-side turn buffers — unchanged. -/
theorem clearMessages_amended (s : HookState) :
    (clearMessages s).messages = [] ∧
    (clearMessages s).streamingContent = "" ∧
    (clearMessages s).activeTools = [] ∧
    (clearMessages s).completedTools = [] ∧
    (clearMessages s).todos = none ∧
    (clearMessages s).error = none ∧
    (clearMessages s).status = s.status ∧
    (clearMessages s).sessionId = s.sessionId ∧
    (clearMessages s).lastSeq = s.lastSeq ∧
    (clearMessages s).isStreaming = s.isStreaming ∧
    (clearMessages s).isStreamingRef = s.isStreamingRef ∧
    (clearMessages s).streamingContentRef = s.streamingContentRef ∧
    (clearMessages s).completedToolsRef = s.completedToolsRef ∧
    (clearMessages s).pendingText = s.pendingText ∧
    (clearMessages s).contentBlocks = s.contentBlocks ∧
    (clearMessages s).currentToolGroup = s.currentToolGroup ∧
    (clearMessages s).currentAssistantMessage = s.currentAssistantMessage := by
  simp [clearMessages]

/-! ## Claim C9: an inbound chat error leaves the history untouched -/

/-- C9: a chat `error` event leaves the message list itself unchanged (so a
streaming placeholder appended by `send` stays in the history still marked
streaming); only the session-level streaming flags, the error state and the
turn buffers change. -/
theorem error_frame_effect (p : ChatPayload) (s : HookState) :
    (handleErrorAction p s).messages = s.messages ∧
    (handleErrorAction p s).sessionId = s.sessionId ∧
    (handleErrorAction p s).lastSeq = s.lastSeq ∧
    (handleErrorAction p s).status = s.status ∧
    (handleErrorAction p s).todos = s.todos ∧
    (handleErrorAction p s).nextId = s.nextId ∧
    (handleErrorAction p s).isStreaming = false ∧
    (handleErrorAction p s).isStreamingRef = false ∧
    (handleErrorAction p s).error = some (orDefault p.error "Unknown error") ∧
    (handleErrorAction p s).streamingContent = "" ∧
    (handleErrorAction p s).streamingContentRef = "" ∧
    (handleErrorAction p s).activeTools = [] ∧
    (handleErrorAction p s).completedTools = [] ∧
    (handleErrorAction p s).completedToolsRef = [] ∧
    (handleErrorAction p s).contentBlocks = [] ∧
    (handleErrorAction p s).pendingText = "" ∧
    (handleErrorAction p s).currentToolGroup = [] ∧
    (handleErrorAction p s).currentAssistantMessage = none := by
  simp [handleErrorAction, resetStreamingState]

/-! ## Claim C5: send rejection -/

/-- C5 counterexample: a `send` during streaming is rejected *silently* — the
claim's "sets the error state" fails: after a first `send`, a second `send`
leaves the error state empty. -/
theorem send_reject_cex :
    ¬ ∀ (connected : Bool) (c : String) (s : HookState),
        (connected = false ∨ s.isStreamingRef = true) →
        ((send connected c s).error.isSome ∧ (send connected c s).messages = s.messages) := by
  intro h
  have := (h true "x" (send true "hi" initialState) (Or.inr (by decide))).1
  exact absurd this (by decide)

/-- C5 (amended): a `send` while not connected sets the error state to
"Not connected" and changes nothing else; a `send` while connected but
already streaming is a complete no-op (no error is set, no message appended,
no state changed). -/
theorem send_reject_amended (c : String) (s : HookState) :
    (send false c s = { s with error := some "Not connected" }) ∧
    (s.isStreamingRef = true → send true c s = s) := by
  constructor
  · simp [send]
  · intro h
    simp [send, h]

/-- Witness for `send_reject_amended`: a second `send` right after a first one
is dropped without any state change. -/
theorem send_reject_amended_witness :
    (send true "hi" initialState).isStreamingRef = true ∧
    send true "x" (send true "hi" initialState) = send true "hi" initialState :=
  ⟨by decide, (send_reject_amended "x" (send true "hi" initialState)).2 (by decide)⟩

/-! ## Claim C2: the canonical interleaving scenario -/

/-- C2: starting from empty turn buffers (right after `send`), the events
token "A", tool_start, tool_end, token "B", complete finalize the assistant
message with content blocks Text "A", ToolGroup, Text "B" in exactly that
order. -/
theorem interleaving_scenario :
    ((runChat [tokenEv "A", startEv sampleTool, endEv sampleTool, tokenEv "B", completeEv]
        (send true "hi" initialState)).messages.map (fun m => m.contentBlocks)) =
      [none, some [ContentBlock.text "A" 0, ContentBlock.tool_group [sampleTool] 0,
        ContentBlock.text "B" 0]] := by
  decide

/-! ## Claim C4: counterexample -/

/-- C4 counterexample: after `send`, an inbound `error` and a second `send`,
two messages are simultaneously marked streaming — the error handler resets
the session-level flag but leaves the stale placeholder streaming in the
history. -/
theorem single_streaming_cex :
    ¬ ∀ ops : List SessionOp, streamingCount (runOps ops initialState) ≤ 1 := by
  intro h
  have := h [.sendOp true "hi", .errorOp none, .sendOp true "again"]
  exact absurd this (by decide)

/-! ## Claim C1: counterexample -/

/-- C1 counterexample: a system `connected` frame carrying a truthy
`currentSeq` *assigns* (not max-merges) the tracked `lastSeq`: after a chat
frame with seq 5, a connected frame with currentSeq 1 drops `lastSeq` to 1. -/
theorem lastSeq_mono_cex :
    ¬ ∀ (es : List Envelope) (e : Envelope),
        (runFrames es).lastSeq ≤ (runFrames (es ++ [e])).lastSeq := by
  intro h
  have h1 := h [.mk 5 (.chat (tokenEv "x"))]
    (.mk 0 (.system (.mk .connected (some 1) none none none none)))
  simp [runFrames, handleMessage, handleChatPayload, handleTokenAction,
    handleSystemPayload, handleConnectedAction, initialState, tokenEv] at h1

/-! ## Claim C3: counterexample -/

/-- C3 counterexample: the snapshot handler is *not* equivalent to replay
followed by the spec's chatState override in which the snapshot's
accumulatedContent wins: for a non-streaming status the code keeps the local
streaming content while the spec override installs the snapshot's. -/
theorem snapshot_replay_cex :
    ¬ ∀ (sid : Option String) (events : Option (List Envelope)) (cs : Option ChatState)
        (s : HookState), handleSnapshotAction sid events cs s = snapshotSpec sid events cs s := by
  intro h
  have := congrArg HookState.streamingContent
    (h none none (some { status := "complete", accumulatedContent := "peer" })
      { initialState with streamingContent := "local" })
  simp [handleSnapshotAction, applyChatState, snapshotSpec, chatStateOverrideSpec,
    initialState] at this

/-! ## Claim C3: amended equivalence -/

/-- C3 (amended): the snapshot handler equals delivering the buffered
envelopes live through the message handler and then applying the code's
chatState override — in which the streaming flag and accumulatedContent are
restored only for a mid-stream status while tools and todos win whenever
present; in particular, for a mid-stream chatState carrying tools and todos,
the snapshot's accumulatedContent, tools and todos win over any state
reconstructed from the replayed events. -/
theorem snapshot_replay_amended :
    (∀ (sid : Option String) (events : Option (List Envelope)) (cs : Option ChatState)
        (s : HookState),
        handleSnapshotAction sid events cs s = snapshotReplayed sid events cs s) ∧
    (∀ (sid : Option String) (es : List Envelope) (c : String) (ts : List ToolUseData)
        (td : List TodoItem) (s : HookState),
        (handleSnapshotAction sid (some es)
            (some { status := "streaming", accumulatedContent := c, tools := some ts,
                    todos := some td }) s).streamingContent = c ∧
        (handleSnapshotAction sid (some es)
            (some { status := "streaming", accumulatedContent := c, tools := some ts,
                    todos := some td }) s).completedTools = ts ∧
        (handleSnapshotAction sid (some es)
            (some { status := "streaming", accumulatedContent := c, tools := some ts,
                    todos := some td }) s).todos = some td ∧
        (handleSnapshotAction sid (some es)
            (some { status := "streaming", accumulatedContent := c, tools := some ts,
                    todos := some td }) s).isStreaming = true ∧
        (handleSnapshotAction sid (some es)
            (some { status := "streaming", accumulatedContent := c, tools := some ts,
                    todos := some td }) s).isStreamingRef = true) := by
  constructor
  · intro sid events cs s
    cases sid <;> cases events <;> cases cs <;>
      simp [handleSnapshotAction, snapshotReplayed, replayEvents_eq_foldl]
  · intro sid es c ts td s
    cases sid <;> simp [handleSnapshotAction, applyChatState]

/-! ## Claim C1: the amended monotonicity of lastSeq -/

theorem flushPendingText_lastSeq (s : HookState) :
    (flushPendingText s).lastSeq = s.lastSeq := by
  unfold flushPendingText
  split <;> rfl

theorem flushToolGroup_lastSeq (s : HookState) :
    (flushToolGroup s).lastSeq = s.lastSeq := by
  unfold flushToolGroup
  split <;> rfl

theorem resetStreamingState_lastSeq (s : HookState) :
    (resetStreamingState s).lastSeq = s.lastSeq := rfl

theorem handleTokenAction_lastSeq (p : ChatPayload) (s : HookState) :
    (handleTokenAction p s).lastSeq = s.lastSeq := by
  unfold handleTokenAction
  repeat' split
  all_goals rfl

theorem handleToolStartAction_lastSeq (p : ChatPayload) (s : HookState) :
    (handleToolStartAction p s).lastSeq = s.lastSeq := by
  unfold handleToolStartAction
  split
  · rfl
  · dsimp only
    split <;> split <;> simp [flushPendingText_lastSeq]

theorem handleToolEndAction_lastSeq (p : ChatPayload) (s : HookState) :
    (handleToolEndAction p s).lastSeq = s.lastSeq := by
  unfold handleToolEndAction
  split
  · rfl
  · dsimp only
    split <;> split <;> rfl

theorem handleTodoUpdateAction_lastSeq (p : ChatPayload) (s : HookState) :
    (handleTodoUpdateAction p s).lastSeq = s.lastSeq := by
  unfold handleTodoUpdateAction
  split <;> rfl

theorem handleCompleteAction_lastSeq (s : HookState) :
    (handleCompleteAction s).lastSeq = s.lastSeq := by
  unfold handleCompleteAction
  dsimp only
  repeat' split
  all_goals
    simp [resetStreamingState_lastSeq, flushToolGroup_lastSeq, flushPendingText_lastSeq]

theorem handleErrorAction_lastSeq (p : ChatPayload) (s : HookState) :
    (handleErrorAction p s).lastSeq = s.lastSeq := rfl

theorem handleChatPayload_lastSeq (p : ChatPayload) (s : HookState) :
    (handleChatPayload p s).lastSeq = s.lastSeq := by
  unfold handleChatPayload
  cases p.action <;>
    simp [handleTokenAction_lastSeq, handleToolStartAction_lastSeq,
      handleToolEndAction_lastSeq, handleTodoUpdateAction_lastSeq,
      handleCompleteAction_lastSeq, handleErrorAction_lastSeq]

theorem applyChatState_lastSeq (cs : ChatState) (s : HookState) :
    (applyChatState cs s).lastSeq = s.lastSeq := by
  unfold applyChatState
  repeat' split
  all_goals rfl

/-- The simultaneous monotonicity statement for the mutual recursion, ranked
by `sizeOf` to cross the snapshot replay. -/
theorem lastSeq_mono_rank (n : Nat) :
    (∀ (e : Envelope) (s : HookState), sizeOf e ≤ n → envNoSeqOverride e = true →
        s.lastSeq ≤ (handleMessage e s).lastSeq) ∧
    (∀ (es : List Envelope) (s : HookState), sizeOf es ≤ n → eventsNoSeqOverride es = true →
        s.lastSeq ≤ (replayEvents es s).lastSeq) := by
  induction n using Nat.strong_induction_on with
  | _ n ih =>
    constructor
    · rintro ⟨seq, payload⟩ s hsz hclean
      have hstep : s.lastSeq ≤ (if s.lastSeq < seq then { s with lastSeq := seq } else s).lastSeq := by
        split
        · simp
          omega
        · simp
      cases payload with
      | chat p =>
        rw [show handleMessage (.mk seq (.chat p))  s =
              handleChatPayload p (if s.lastSeq < seq then { s with lastSeq := seq } else s)
            from by simp [handleMessage]]
        rw [handleChatPayload_lastSeq]
        exact hstep
      | system p =>
        rw [show handleMessage (.mk seq (.system p)) s =
              handleSystemPayload p (if s.lastSeq < seq then { s with lastSeq := seq } else s)
            from by simp [handleMessage]]
        refine hstep.trans ?_
        generalize (if s.lastSeq < seq then { s with lastSeq := seq } else s) = s'
        obtain ⟨action, currentSeq, sid, events, cstate, err⟩ := p
        have hclean' : sysNoSeqOverride (.mk action currentSeq sid events cstate err) = true := by
          simpa [envNoSeqOverride] using hclean
        cases action with
        | connected =>
          cases currentSeq with
          | none => simp [handleSystemPayload, handleConnectedAction]
          | some k =>
            have hk : k = 0 := by simpa [sysNoSeqOverride] using hclean'
            simp [handleSystemPayload, handleConnectedAction, hk]
        | subscribe => simp [handleSystemPayload]
        | catch_up => simp [handleSystemPayload]
        | error => simp [handleSystemPayload]
        | snapshot =>
          cases events with
          | none =>
            cases sid <;> cases cstate <;>
              simp [handleSystemPayload, handleSnapshotAction, applyChatState_lastSeq]
          | some es =>
            have hlt : sizeOf es < n := by
              have hq : sizeOf es < sizeOf (Envelope.mk seq (.system
                  (.mk .snapshot currentSeq sid (some es) cstate err))) := by
                simp
                omega
              omega
            have hcl : eventsNoSeqOverride es = true := by
              simpa [sysNoSeqOverride] using hclean'
            have hmono := (ih (sizeOf es) hlt).2 es
            cases sid with
            | none =>
              cases cstate with
              | none =>
                simp [handleSystemPayload, handleSnapshotAction]
                exact hmono s' (le_refl _) hcl
              | some cs =>
                simp [handleSystemPayload, handleSnapshotAction, applyChatState_lastSeq]
                exact hmono s' (le_refl _) hcl
            | some sd =>
              cases cstate with
              | none =>
                simp [handleSystemPayload, handleSnapshotAction]
                exact hmono { s' with sessionId := some sd } (le_refl _) hcl
              | some cs =>
                simp [handleSystemPayload, handleSnapshotAction, applyChatState_lastSeq]
                exact hmono { s' with sessionId := some sd } (le_refl _) hcl
    · intro es s hsz hclean
      cases es with
      | nil => simp [replayEvents]
      | cons e rest =>
        have hce : envNoSeqOverride e = true := by
          simp [eventsNoSeqOverride] at hclean
          exact hclean.1
        have hcr : eventsNoSeqOverride rest = true := by
          simp [eventsNoSeqOverride] at hclean
          exact hclean.2
        have hsz' : sizeOf (e :: rest) = 1 + sizeOf e + sizeOf rest := by simp
        have h1 : sizeOf e < n := by omega
        have h2 : sizeOf rest < n := by omega
        rw [show replayEvents (e :: rest) s = replayEvents rest (handleMessage e s) from by
          simp [replayEvents]]
        exact ((ih (sizeOf e) h1).1 e s (le_refl _) hce).trans
          ((ih (sizeOf rest) h2).2 rest _ (le_refl _) hcr)

/-- C1 (amended): `lastSeq` never decreases across any inbound frame that
does not carry — directly or nested in a snapshot's buffered events — a
system `connected` payload with a truthy `currentSeq`; such a `connected`
frame overwrites `lastSeq` with its `currentSeq`, which may be lower. -/
theorem lastSeq_mono_amended (e : Envelope) (s : HookState)
    (h : envNoSeqOverride e = true) : s.lastSeq ≤ (handleMessage e s).lastSeq :=
  (lastSeq_mono_rank (sizeOf e)).1 e s (le_refl _) h

/-- Witness for `lastSeq_mono_amended` at a concrete chat frame. -/
theorem lastSeq_mono_amended_witness :
    envNoSeqOverride (.mk 3 (.chat (tokenEv "a"))) = true ∧
    initialState.lastSeq ≤
      (handleMessage (.mk 3 (.chat (tokenEv "a"))) initialState).lastSeq :=
  ⟨by simp [envNoSeqOverride],
   lastSeq_mono_amended (.mk 3 (.chat (tokenEv "a"))) initialState
     (by simp [envNoSeqOverride])⟩

/-! ## Claim C4: the amended at-most-one-streaming invariant -/

theorem flushPendingText_messages (s : HookState) :
    (flushPendingText s).messages = s.messages := by
  unfold flushPendingText
  split <;> rfl

theorem flushPendingText_cam (s : HookState) :
    (flushPendingText s).currentAssistantMessage = s.currentAssistantMessage := by
  unfold flushPendingText
  split <;> rfl

theorem flushPendingText_nextId (s : HookState) :
    (flushPendingText s).nextId = s.nextId := by
  unfold flushPendingText
  split <;> rfl

theorem flushPendingText_ref (s : HookState) :
    (flushPendingText s).isStreamingRef = s.isStreamingRef := by
  unfold flushPendingText
  split <;> rfl

theorem flushToolGroup_messages (s : HookState) :
    (flushToolGroup s).messages = s.messages := by
  unfold flushToolGroup
  split <;> rfl

theorem flushToolGroup_cam (s : HookState) :
    (flushToolGroup s).currentAssistantMessage = s.currentAssistantMessage := by
  unfold flushToolGroup
  split <;> rfl

theorem flushToolGroup_nextId (s : HookState) :
    (flushToolGroup s).nextId = s.nextId := by
  unfold flushToolGroup
  split <;> rfl

theorem flushToolGroup_ref (s : HookState) :
    (flushToolGroup s).isStreamingRef = s.isStreamingRef := by
  unfold flushToolGroup
  split <;> rfl

theorem updateFirst?_eq_none_of {α : Type} (p : α → Bool) (f : α → α) :
    ∀ l : List α, (∀ x ∈ l, p x = false) → updateFirst? p f l = none := by
  intro l h
  induction l with
  | nil => rfl
  | cons x xs ih =>
    unfold updateFirst?
    rw [h x (by simp)]
    simp [ih (fun y hy => h y (by simp [hy]))]

theorem updateFirst?_append_singleton {α : Type} (p : α → Bool) (f : α → α) :
    ∀ (ms : List α) (m0 : α), (∀ x ∈ ms, p x = false) → p m0 = true →
      updateFirst? p f (ms ++ [m0]) = some (ms ++ [f m0]) := by
  intro ms m0 hms hm0
  induction ms with
  | nil =>
    unfold updateFirst?
    simp [hm0]
  | cons x xs ih =>
    simp only [List.cons_append]
    unfold updateFirst?
    rw [hms x (by simp)]
    simp [ih (fun y hy => hms y (by simp [hy]))]

/-- What `handleCompleteAction` does to the history when the invariant's
streaming shape holds: the last message (the placeholder, found by id) is
overwritten in place, keeping its id, now marked not streaming; the
placeholder tracking and the streaming ref are cleared and no id is
consumed. -/
theorem handleCompleteAction_streaming_spec (s : HookState) (mid : Nat)
    (ms : List ChatMessage) (m0 : ChatMessage)
    (hcam : s.currentAssistantMessage = some mid)
    (hmsgs : s.messages = ms ++ [m0]) (hid : m0.id = mid)
    (hms : ∀ m ∈ ms, m.id ≠ mid) :
    ∃ m1, (handleCompleteAction s).messages = ms ++ [m1] ∧
      m1.isStreaming = some false ∧ m1.id = m0.id ∧
      (handleCompleteAction s).currentAssistantMessage = none ∧
      (handleCompleteAction s).isStreamingRef = false ∧
      (handleCompleteAction s).nextId = s.nextId := by
  unfold handleCompleteAction
  dsimp only
  rw [show (flushToolGroup (flushPendingText
        { s with isStreaming := false, isStreamingRef := false })).currentAssistantMessage =
      some mid from by rw [flushToolGroup_cam, flushPendingText_cam]; exact hcam]
  rw [show (flushToolGroup (flushPendingText
        { s with isStreaming := false, isStreamingRef := false })).messages =
      ms ++ [m0] from by rw [flushToolGroup_messages, flushPendingText_messages]; exact hmsgs]
  rw [updateFirst?_append_singleton _ _ ms m0
    (by
      intro x hx
      rw [beq_eq_false_iff_ne]
      intro he
      exact hms x hx (Option.some.inj he).symm)
    (by rw [hid]; exact beq_self_eq_true _)]
  refine ⟨_, rfl, rfl, rfl, rfl, ?_, ?_⟩
  · simp [resetStreamingState, flushToolGroup_ref, flushPendingText_ref]
  · simp [resetStreamingState, flushToolGroup_nextId, flushPendingText_nextId]

/-- What `handleCompleteAction` does to the history when nothing is
streaming: either the history is unchanged, or (when accumulated data exists)
a fresh non-streaming assistant message is appended with the next fresh id. -/
theorem handleCompleteAction_idle_spec (s : HookState)
    (hcam : s.currentAssistantMessage = none)
    (hns : ∀ m ∈ s.messages, NotStreamingMsg m) :
    (((handleCompleteAction s).messages = s.messages ∧
        (handleCompleteAction s).nextId = s.nextId) ∨
      (∃ mNew, (handleCompleteAction s).messages = s.messages ++ [mNew] ∧
        mNew.isStreaming = some false ∧ mNew.id = s.nextId ∧
        (handleCompleteAction s).nextId = s.nextId + 1)) ∧
    (handleCompleteAction s).currentAssistantMessage = none ∧
    (handleCompleteAction s).isStreamingRef = false := by
  unfold handleCompleteAction
  dsimp only
  rw [show (flushToolGroup (flushPendingText
        { s with isStreaming := false, isStreamingRef := false })).currentAssistantMessage =
      none from by rw [flushToolGroup_cam, flushPendingText_cam]; exact hcam]
  rw [show (flushToolGroup (flushPendingText
        { s with isStreaming := false, isStreamingRef := false })).messages =
      s.messages from by rw [flushToolGroup_messages, flushPendingText_messages]]
  rw [updateFirst?_eq_none_of _ _ s.messages (by intro x hx; rfl)]
  rw [updateFirst?_eq_none_of _ _ s.messages (by
    intro x hx
    rw [beq_eq_false_iff_ne]
    exact hns x hx)]
  dsimp only
  split
  · refine ⟨Or.inr ⟨_, rfl, rfl, ?_, ?_⟩, rfl, ?_⟩
    · simp [flushToolGroup_nextId, flushPendingText_nextId]
    · simp [resetStreamingState, flushToolGroup_nextId, flushPendingText_nextId]
    · simp [resetStreamingState, flushToolGroup_ref, flushPendingText_ref]
  · refine ⟨Or.inl ⟨?_, ?_⟩, rfl, ?_⟩
    · simp [resetStreamingState, flushToolGroup_messages, flushPendingText_messages]
    · simp [resetStreamingState, flushToolGroup_nextId, flushPendingText_nextId]
    · simp [resetStreamingState, flushToolGroup_ref, flushPendingText_ref]

theorem C4Inv_initial : C4Inv initialState := by
  refine ⟨by simp [initialState], by simp [initialState], by simp [initialState]⟩

theorem C4Inv_send (conn : Bool) (c : String) (s : HookState) (h : C4Inv s) :
    C4Inv (send conn c s) := by
  obtain ⟨hbound, hfalse, htrue⟩ := h
  cases conn with
  | false =>
    rw [show send false c s = { s with error := some "Not connected" } from by simp [send]]
    exact ⟨hbound, hfalse, htrue⟩
  | true =>
    cases hs : s.isStreamingRef with
    | true =>
      rw [show send true c s = s from by simp [send, hs]]
      exact ⟨hbound, hfalse, htrue⟩
    | false =>
      obtain ⟨hcam, hnostream⟩ := hfalse hs
      rw [show send true c s =
          { s with isStreaming := true, isStreamingRef := true,
                   streamingContent := "", streamingContentRef := "",
                   activeTools := [], completedTools := [], completedToolsRef := [],
                   error := none,
                   currentAssistantMessage := some (s.nextId + 1),
                   messages := s.messages ++
                     [{ id := s.nextId, role := .user, content := c, timestamp := 0 },
                      { id := s.nextId + 1, role := .assistant, content := "", timestamp := 0,
                        isStreaming := some true }],
                   nextId := s.nextId + 2 } from by simp [send, hs]]
      refine ⟨?_, ?_, ?_⟩
      · intro m hm
        show m.id < s.nextId + 2
        simp only [List.mem_append, List.mem_cons, List.mem_singleton,
          List.not_mem_nil, or_false] at hm
        rcases hm with hm | hm | hm
        · have := hbound m hm
          omega
        · subst hm
          show s.nextId < s.nextId + 2
          omega
        · subst hm
          show s.nextId + 1 < s.nextId + 2
          omega
      · intro hr
        exact absurd hr (by simp)
      · intro _
        refine ⟨s.nextId + 1,
          s.messages ++ [{ id := s.nextId, role := .user, content := c, timestamp := 0 }],
          { id := s.nextId + 1, role := .assistant, content := "", timestamp := 0,
            isStreaming := some true },
          rfl, ?_, rfl, rfl, ?_⟩
        · show s.messages ++ [_, _] = _
          rw [List.append_assoc]
          rfl
        · intro m hm
          simp only [List.mem_append, List.mem_singleton] at hm
          rcases hm with hm | hm
          · refine ⟨hnostream m hm, ?_⟩
            have := hbound m hm
            omega
          · subst hm
            exact ⟨by simp [NotStreamingMsg], by simp⟩

theorem C4Inv_complete (s : HookState) (h : C4Inv s) : C4Inv (handleCompleteAction s) := by
  obtain ⟨hbound, hfalse, htrue⟩ := h
  cases hs : s.isStreamingRef with
  | true =>
    obtain ⟨mid, ms, m0, hcam, hmsgs, hstr, hid, hms⟩ := htrue hs
    obtain ⟨m1, hmsgs', hm1s, hm1id, hcam', href', hnid'⟩ :=
      handleCompleteAction_streaming_spec s mid ms m0 hcam hmsgs hid
        (fun m hm => (hms m hm).2)
    refine ⟨?_, ?_, ?_⟩
    · intro m hm
      rw [hmsgs'] at hm
      rw [hnid']
      simp only [List.mem_append, List.mem_singleton] at hm
      rcases hm with hm | hm
      · exact hbound m (by rw [hmsgs]; exact List.mem_append_left _ hm)
      · subst hm
        rw [hm1id]
        exact hbound m0 (by rw [hmsgs]; exact List.mem_append_right _ (by simp))
    · intro _
      refine ⟨hcam', ?_⟩
      intro m hm
      rw [hmsgs'] at hm
      simp only [List.mem_append, List.mem_singleton] at hm
      rcases hm with hm | hm
      · exact (hms m hm).1
      · subst hm
        simp [NotStreamingMsg, hm1s]
    · intro hr
      rw [href'] at hr
      exact absurd hr (by simp)
  | false =>
    obtain ⟨hcam, hnostream⟩ := hfalse hs
    obtain ⟨hbranch, hcam', href'⟩ := handleCompleteAction_idle_spec s hcam hnostream
    refine ⟨?_, ?_, ?_⟩
    · intro m hm
      rcases hbranch with ⟨hmsg, hnid⟩ | ⟨mNew, hmsg, _, hnewid, hnid⟩
      · rw [hmsg] at hm
        rw [hnid]
        exact hbound m hm
      · rw [hmsg] at hm
        rw [hnid]
        simp only [List.mem_append, List.mem_singleton] at hm
        rcases hm with hm | hm
        · have := hbound m hm
          omega
        · subst hm
          omega
    · intro _
      refine ⟨hcam', ?_⟩
      intro m hm
      rcases hbranch with ⟨hmsg, _⟩ | ⟨mNew, hmsg, hnewstr, _, _⟩
      · rw [hmsg] at hm
        exact hnostream m hm
      · rw [hmsg] at hm
        simp only [List.mem_append, List.mem_singleton] at hm
        rcases hm with hm | hm
        · exact hnostream m hm
        · subst hm
          simp [NotStreamingMsg, hnewstr]
    · intro hr
      rw [href'] at hr
      exact absurd hr (by simp)

theorem C4Inv_ops (ops : List SessionOp) (s : HookState) (h : C4Inv s)
    (hops : ∀ op ∈ ops, op.isError = false) : C4Inv (runOps ops s) := by
  induction ops generalizing s with
  | nil => exact h
  | cons op rest ih =>
    rw [show runOps (op :: rest) s = runOps rest (applyOp s op) from by simp [runOps]]
    have h1 : C4Inv (applyOp s op) := by
      cases op with
      | sendOp conn c => exact C4Inv_send conn c s h
      | completeOp => exact C4Inv_complete s h
      | errorOp e =>
        exact absurd (hops (SessionOp.errorOp e) (by simp)) (by simp [SessionOp.isError])
    exact ih _ h1 (fun op' hop' => hops op' (by simp [hop']))

theorem C4Inv_count (s : HookState) (h : C4Inv s) : streamingCount s ≤ 1 := by
  obtain ⟨hbound, hfalse, htrue⟩ := h
  cases hs : s.isStreamingRef with
  | false =>
    obtain ⟨hcam, hns⟩ := hfalse hs
    have hnil : s.messages.filter (fun m => m.isStreaming == some true) = [] := by
      rw [List.filter_eq_nil_iff]
      intro m hm
      simpa [NotStreamingMsg] using hns m hm
    simp [streamingCount, hnil]
  | true =>
    obtain ⟨mid, ms, m0, hcam, hmsgs, hstr, hid, hms⟩ := htrue hs
    have h1 : ms.filter (fun m => m.isStreaming == some true) = [] := by
      rw [List.filter_eq_nil_iff]
      intro m hm
      simpa [NotStreamingMsg] using (hms m hm).1
    rw [streamingCount, hmsgs, List.filter_append, h1]
    simp [hstr]

/-- C4 (amended): for every sequence of `send` and `complete` operations
(no inbound `error`), at most one message in the history is marked streaming
at any time.  (An inbound `error` breaks this: it clears the session-level
flag but leaves the placeholder streaming, so a following `send` yields two
streaming messages — see the counterexample.) -/
theorem single_streaming_amended (ops : List SessionOp)
    (h : ∀ op ∈ ops, op.isError = false) :
    streamingCount (runOps ops initialState) ≤ 1 :=
  C4Inv_count _ (C4Inv_ops ops initialState C4Inv_initial h)

/-- Witness for `single_streaming_amended` on a concrete error-free trace. -/
theorem single_streaming_amended_witness :
    (∀ op ∈ [SessionOp.sendOp true "hi", SessionOp.completeOp], op.isError = false) ∧
    streamingCount (runOps [SessionOp.sendOp true "hi", SessionOp.completeOp] initialState) ≤ 1 :=
  ⟨by decide, single_streaming_amended _ (by decide)⟩

/-! ## Claim C10: whitespace-only pending text is never sealed -/

/-- C10: a pending text run that is empty or whitespace after trimming is not
sealed as a `text` block — the flush is a no-op and a `tool_start` adds no
block — so the finalized flat content (which keeps the whitespace) can differ
from the concatenation of the `text` blocks: sending token " " then complete
finalizes content " " with an empty block list whose text concatenation is
"". -/
theorem whitespace_pending :
    (∀ s : HookState, jsTrim s.pendingText = "" → flushPendingText s = s) ∧
    (∀ (s : HookState) (t : ToolUseData), jsTrim s.pendingText = "" →
        (handleToolStartAction (startEv t) s).contentBlocks = s.contentBlocks) ∧
    ((runChat [tokenEv " ", completeEv] (send true "hi" initialState)).messages.map
        (fun m => (m.content, m.contentBlocks.map textConcat)) =
      [("hi", none), (" ", some "")] ∧ (" " : String) ≠ "") := by
  have hflush : ∀ s : HookState, jsTrim s.pendingText = "" → flushPendingText s = s := by
    intro s h
    unfold flushPendingText
    simp [h]
  refine ⟨hflush, ?_, by decide⟩
  intro s t h
  unfold handleToolStartAction startEv
  dsimp only
  rw [hflush s h]
  split <;> split <;> rfl

/-- Witness for `whitespace_pending` at a concrete whitespace-pending state. -/
theorem whitespace_pending_witness :
    jsTrim (runChat [tokenEv " "] (send true "hi" initialState)).pendingText = "" ∧
    flushPendingText (runChat [tokenEv " "] (send true "hi" initialState)) =
      runChat [tokenEv " "] (send true "hi" initialState) ∧
    (handleToolStartAction (startEv sampleTool)
        (runChat [tokenEv " "] (send true "hi" initialState))).contentBlocks =
      (runChat [tokenEv " "] (send true "hi" initialState)).contentBlocks :=
  ⟨by decide,
   whitespace_pending.1 _ (by decide),
   whitespace_pending.2.1 _ sampleTool (by decide)⟩

/-! ## Claim C6: tool id uniqueness -/

theorem toolIds_nil : toolIds [] = [] := rfl

theorem toolIds_cons (t : ToolUseData) (l : List ToolUseData) :
    toolIds (t :: l) = t.id :: toolIds l := rfl

theorem toolIds_append (l1 l2 : List ToolUseData) :
    toolIds (l1 ++ l2) = toolIds l1 ++ toolIds l2 := List.map_append _ l1 l2

theorem merge_map_id (u t : ToolUseData) :
    (if t.id = u.id then mergeTool t u else t).id = t.id := by
  by_cases h : t.id = u.id <;> simp [mergeTool, h]

theorem toolIds_map_merge (u : ToolUseData) (l : List ToolUseData) :
    toolIds (l.map (fun t => if t.id = u.id then mergeTool t u else t)) = toolIds l := by
  induction l with
  | nil => rfl
  | cons t ts ih =>
    simp only [List.map_cons, toolIds_cons] at ih ⊢
    rw [merge_map_id, ih]

theorem map_merge_of_disjoint (u : ToolUseData) (l : List ToolUseData)
    (h : ∀ t ∈ l, t.id ≠ u.id) :
    l.map (fun t => if t.id = u.id then mergeTool t u else t) = l := by
  induction l with
  | nil => rfl
  | cons t ts ih =>
    simp only [List.map_cons]
    rw [if_neg (h t (by simp)), ih (fun x hx => h x (by simp [hx]))]

theorem ToolInv_flushPendingText (s : HookState) (h : ToolInv s) :
    ToolInv (flushPendingText s) := by
  obtain ⟨h1, h2⟩ := h
  unfold flushPendingText
  split
  · refine ⟨h1, ?_⟩
    intro b hb
    rcases List.mem_append.mp hb with hb | hb
    · exact h2 b hb
    · rw [List.mem_singleton] at hb
      subst hb
      simp [blockIdsOk]
  · exact ⟨h1, h2⟩

theorem ToolInv_flushToolGroup (s : HookState) (h : ToolInv s) :
    ToolInv (flushToolGroup s) := by
  obtain ⟨h1, h2⟩ := h
  unfold flushToolGroup
  split
  · refine ⟨by simp [toolIds], ?_⟩
    intro b hb
    rcases List.mem_append.mp hb with hb | hb
    · exact h2 b hb
    · rw [List.mem_singleton] at hb
      subst hb
      exact h1
  · exact ⟨h1, h2⟩

theorem ToolInv_reset (s : HookState) : ToolInv (resetStreamingState s) := by
  refine ⟨by simp [toolIds, resetStreamingState], ?_⟩
  intro b hb
  simp [resetStreamingState] at hb

theorem ToolInv_token (p : ChatPayload) (s : HookState) (h : ToolInv s) :
    ToolInv (handleTokenAction p s) := by
  obtain ⟨h1, h2⟩ := h
  unfold handleTokenAction
  split
  · exact ⟨h1, h2⟩
  · split
    · exact ⟨h1, h2⟩
    · exact ⟨h1, h2⟩

theorem ToolInv_toolStart (p : ChatPayload) (s : HookState) (h : ToolInv s) :
    ToolInv (handleToolStartAction p s) := by
  unfold handleToolStartAction
  split
  · exact h
  · next tool _ =>
    dsimp only
    obtain ⟨h1, h2⟩ := ToolInv_flushPendingText s h
    split
    · split
      · exact ⟨h1, h2⟩
      · exact ⟨h1, h2⟩
    · next hnotin =>
      have hnew : (toolIds ((flushPendingText s).currentToolGroup ++ [tool])).Nodup := by
        rw [toolIds_append, List.nodup_append]
        refine ⟨h1, List.nodup_singleton _, ?_⟩
        intro a ha hb
        rw [toolIds_cons, toolIds_nil, List.mem_singleton] at hb
        subst hb
        rcases List.mem_map.mp ha with ⟨x, hx, hxid⟩
        rw [List.any_eq_true] at hnotin
        exact hnotin ⟨x, hx, by simp [hxid]⟩
      split
      · exact ⟨hnew, h2⟩
      · exact ⟨hnew, h2⟩

theorem ToolInv_toolEnd (p : ChatPayload) (s : HookState) (h : ToolInv s) :
    ToolInv (handleToolEndAction p s) := by
  obtain ⟨h1, h2⟩ := h
  unfold handleToolEndAction
  split
  · exact ⟨h1, h2⟩
  · next tool _ =>
    dsimp only
    have hm : (toolIds (s.currentToolGroup.map
        (fun t => if t.id = tool.id then mergeTool t tool else t))).Nodup := by
      rw [toolIds_map_merge]
      exact h1
    have hsealed : ∀ b ∈ s.contentBlocks ++
        [ContentBlock.tool_group (s.currentToolGroup.map
          (fun t => if t.id = tool.id then mergeTool t tool else t)) 0], blockIdsOk b := by
      intro b hb
      rcases List.mem_append.mp hb with hb | hb
      · exact h2 b hb
      · rw [List.mem_singleton] at hb
        subst hb
        exact hm
    split
    · split
      · exact ⟨by simp [toolIds], hsealed⟩
      · exact ⟨by simp [toolIds], hsealed⟩
    · split
      · exact ⟨hm, h2⟩
      · exact ⟨hm, h2⟩

theorem ToolInv_todo (p : ChatPayload) (s : HookState) (h : ToolInv s) :
    ToolInv (handleTodoUpdateAction p s) := by
  obtain ⟨h1, h2⟩ := h
  unfold handleTodoUpdateAction
  split
  · exact ⟨h1, h2⟩
  · exact ⟨h1, h2⟩

theorem ToolInv_complete (s : HookState) : ToolInv (handleCompleteAction s) := by
  unfold handleCompleteAction
  dsimp only
  repeat' split
  all_goals exact ToolInv_reset _

theorem ToolInv_error (p : ChatPayload) (s : HookState) :
    ToolInv (handleErrorAction p s) := by
  unfold handleErrorAction
  exact ToolInv_reset _

/-- Conjunct (a) of the id-uniqueness claim: every chat event preserves the
invariant. -/
theorem ToolInv_step (p : ChatPayload) (s : HookState) (h : ToolInv s) :
    ToolInv (handleChatPayload p s) := by
  unfold handleChatPayload
  cases p.action with
  | token => exact ToolInv_token p s h
  | tool_start => exact ToolInv_toolStart p s h
  | tool_end => exact ToolInv_toolEnd p s h
  | todo_update => exact ToolInv_todo p s h
  | thinking => exact h
  | complete => exact ToolInv_complete _
  | error => exact ToolInv_error p _
  | send => exact h
  | cancel => exact h

theorem flushPendingText_group (s : HookState) :
    (flushPendingText s).currentToolGroup = s.currentToolGroup := by
  unfold flushPendingText
  split <;> rfl

/-- Conjunct (b): a duplicate `tool_start` leaves the current tool group
unchanged. -/
theorem tool_start_idem (t : ToolUseData) (s : HookState)
    (h : ∃ x ∈ s.currentToolGroup, x.id = t.id) :
    (handleToolStartAction (startEv t) s).currentToolGroup = s.currentToolGroup := by
  unfold handleToolStartAction startEv
  dsimp only
  rw [show ((flushPendingText s).currentToolGroup.any fun x => x.id = t.id) = true from by
    rw [flushPendingText_group, List.any_eq_true]
    obtain ⟨x, hx, hid⟩ := h
    exact ⟨x, hx, by simp [hid]⟩]
  rw [if_pos rfl]
  split
  · exact flushPendingText_group s
  · exact flushPendingText_group s

/-- The effect of a run of `tool_start` events for fresh, distinct ids on a
state with an untouched whitespace-free pending text: the tools are appended
in order to the current group and the active list; no block is sealed. -/
theorem runStarts_spec :
    ∀ (ts : List ToolUseData) (s : HookState),
      jsTrim s.pendingText = "" →
      (∀ t ∈ ts, ∀ x ∈ s.currentToolGroup, x.id ≠ t.id) →
      (∀ t ∈ ts, ∀ x ∈ s.activeTools, x.id ≠ t.id) →
      (toolIds ts).Nodup →
      (runChat (ts.map startEv) s).currentToolGroup = s.currentToolGroup ++ ts ∧
      (runChat (ts.map startEv) s).activeTools = s.activeTools ++ ts ∧
      (runChat (ts.map startEv) s).contentBlocks = s.contentBlocks ∧
      (runChat (ts.map startEv) s).pendingText = s.pendingText := by
  intro ts
  induction ts with
  | nil =>
    intro s _ _ _ _
    refine ⟨by simp [runChat], by simp [runChat], by simp [runChat], by simp [runChat]⟩
  | cons t ts' ih =>
    intro s htrim hg ha hnd
    have hfl : flushPendingText s = s := by
      unfold flushPendingText
      simp [htrim]
    have hany1 : (s.currentToolGroup.any fun x => x.id = t.id) = false := by
      rw [List.any_eq_false]
      intro x hx
      simpa using hg t (by simp) x hx
    have hany2 : (s.activeTools.any fun x => x.id = t.id) = false := by
      rw [List.any_eq_false]
      intro x hx
      simpa using ha t (by simp) x hx
    have hstep : handleToolStartAction (startEv t) s =
        { s with currentToolGroup := s.currentToolGroup ++ [t],
                 activeTools := s.activeTools ++ [t] } := by
      unfold handleToolStartAction startEv
      simp [hfl, hany1, hany2]
    rw [show runChat ((t :: ts').map startEv) s =
        runChat (ts'.map startEv) (handleToolStartAction (startEv t) s) from by
      simp [runChat, handleChatPayload, startEv]]
    rw [hstep]
    rw [toolIds_cons, List.nodup_cons] at hnd
    obtain ⟨ihg, iha, ihb, ihp⟩ := ih
      { s with currentToolGroup := s.currentToolGroup ++ [t],
               activeTools := s.activeTools ++ [t] }
      htrim
      (by
        intro t' ht' x hx
        rcases List.mem_append.mp hx with hx | hx
        · exact hg t' (by simp [ht']) x hx
        · rw [List.mem_singleton] at hx
          subst hx
          intro he
          exact hnd.1 (he ▸ List.mem_map_of_mem (fun y => y.id) ht'))
      (by
        intro t' ht' x hx
        rcases List.mem_append.mp hx with hx | hx
        · exact ha t' (by simp [ht']) x hx
        · rw [List.mem_singleton] at hx
          subst hx
          intro he
          exact hnd.1 (he ▸ List.mem_map_of_mem (fun y => y.id) ht'))
      hnd.2
    refine ⟨?_, ?_, ihb, ihp⟩
    · rw [ihg, List.append_assoc]
      rfl
    · rw [iha, List.append_assoc]
      rfl

/-- The effect of a run of `tool_end` events matching (in order) the trailing
segment of the current tool group while exactly that segment is active:
completions merge in place, and the final `tool_end` seals the whole group as
one block. -/
theorem runEnds_spec :
    ∀ (rest us M : List ToolUseData) (s : HookState),
      s.currentToolGroup = M ++ rest →
      s.activeTools = rest →
      rest ≠ [] →
      (toolIds (M ++ rest)).Nodup →
      toolIds rest = toolIds us →
      (runChat (us.map endEv) s).currentToolGroup = [] ∧
      (runChat (us.map endEv) s).activeTools = [] ∧
      (runChat (us.map endEv) s).contentBlocks =
        s.contentBlocks ++ [.tool_group (M ++ List.zipWith mergeTool rest us) 0] := by
  intro rest
  induction rest with
  | nil =>
    intro us M s _ _ hne _ _
    exact absurd rfl hne
  | cons t rest' ih =>
    intro us M s hgroup hactive _ hnd hids
    cases us with
    | nil => simp [toolIds] at hids
    | cons u us' =>
      have hds : t.id = u.id ∧ toolIds rest' = toolIds us' := by
        rw [toolIds_cons, toolIds_cons] at hids
        exact List.cons.inj hids
      rw [toolIds_append, toolIds_cons, List.nodup_append] at hnd
      have hMne : ∀ x ∈ M, x.id ≠ u.id := by
        intro x hx he
        exact hnd.2.2 (List.mem_map_of_mem (fun y => y.id) hx)
          (by rw [he, ← hds.1]; exact List.mem_cons_self _ _)
      have hRne : ∀ x ∈ rest', x.id ≠ u.id := by
        intro x hx he
        have hn := List.nodup_cons.mp hnd.2.1
        have hmem : x.id ∈ toolIds rest' := List.mem_map_of_mem (fun y => y.id) hx
        rw [he, ← hds.1] at hmem
        exact hn.1 hmem
      have hmerged : s.currentToolGroup.map
          (fun x => if x.id = u.id then mergeTool x u else x) =
          M ++ mergeTool t u :: rest' := by
        rw [hgroup, List.map_append, map_merge_of_disjoint u M hMne]
        simp only [List.map_cons]
        rw [if_pos hds.1, map_merge_of_disjoint u rest' hRne]
      have hfiltered : (s.activeTools.filter fun x => x.id ≠ u.id) = rest' := by
        rw [hactive]
        simp only [List.filter_cons]
        rw [show (decide (t.id ≠ u.id)) = false from by simp [hds.1]]
        simp only [Bool.false_eq_true, if_false]
        rw [List.filter_eq_self]
        intro x hx
        simp [hRne x hx]
      have hstepg : (handleToolEndAction (endEv u) s).currentToolGroup =
          (if rest' = [] then [] else M ++ mergeTool t u :: rest') ∧
          (handleToolEndAction (endEv u) s).activeTools = rest' ∧
          (handleToolEndAction (endEv u) s).contentBlocks =
            (if rest' = [] then
              s.contentBlocks ++ [.tool_group (M ++ mergeTool t u :: rest') 0]
            else s.contentBlocks) := by
        unfold handleToolEndAction endEv
        dsimp only
        rw [hmerged, hfiltered]
        split
        next hcond =>
          rw [if_pos hcond.1, if_pos hcond.1]
          split
          · exact ⟨rfl, rfl, rfl⟩
          · exact ⟨rfl, rfl, rfl⟩
        next hcond =>
          have hr' : rest' ≠ [] := fun hh => hcond ⟨hh, by simp⟩
          rw [if_neg hr', if_neg hr']
          split
          · exact ⟨rfl, rfl, rfl⟩
          · exact ⟨rfl, rfl, rfl⟩
      rw [show runChat ((u :: us').map endEv) s =
          runChat (us'.map endEv) (handleToolEndAction (endEv u) s) from by
        simp [runChat, handleChatPayload, endEv]]
      by_cases hr : rest' = []
      · subst hr
        have hus' : us' = [] := by
          cases us' with
          | nil => rfl
          | cons v vs => simp [toolIds] at hds
        subst hus'
        rw [show runChat (([] : List ToolUseData).map endEv)
            (handleToolEndAction (endEv u) s) = handleToolEndAction (endEv u) s from by
          simp [runChat]]
        obtain ⟨hg, hA, hB⟩ := hstepg
        rw [if_pos rfl] at hg
        rw [if_pos rfl] at hB
        exact ⟨hg, hA, by rw [hB]; rfl⟩
      · obtain ⟨hg, hA, hB⟩ := hstepg
        rw [if_neg hr] at hg
        rw [if_neg hr] at hB
        obtain ⟨rg, rA, rB⟩ := ih us' (M ++ [mergeTool t u]) (handleToolEndAction (endEv u) s)
          (by rw [hg, List.append_assoc]; rfl)
          hA
          hr
          (by
            rw [toolIds_append, toolIds_append, toolIds_cons, toolIds_nil]
            rw [show (mergeTool t u).id = t.id from by
              simp only [mergeTool]
              exact hds.1.symm]
            obtain ⟨hA, hcons, hdisj⟩ := hnd
            have hcons' := List.nodup_cons.mp hcons
            rw [List.nodup_append, List.nodup_append]
            refine ⟨⟨hA, List.nodup_singleton _, ?_⟩, hcons'.2, ?_⟩
            · intro x hx hxa
              rw [List.mem_singleton] at hxa
              subst hxa
              exact hdisj hx (List.mem_cons_self _ _)
            · intro x hx hxr
              rcases List.mem_append.mp hx with hx | hx
              · exact hdisj hx (List.mem_cons_of_mem _ hxr)
              · rw [List.mem_singleton] at hx
                subst hx
                exact hcons'.1 hxr)
          hds.2
        refine ⟨rg, rA, ?_⟩
        rw [rB, hB, List.append_assoc]
        rfl

theorem toolIds_zipWith_merge :
    ∀ ts us : List ToolUseData, toolIds ts = toolIds us →
      toolIds (List.zipWith mergeTool ts us) = toolIds ts := by
  intro ts
  induction ts with
  | nil => intro us _; rfl
  | cons t ts' ih =>
    intro us h
    cases us with
    | nil => simp [toolIds] at h
    | cons u us' =>
      rw [toolIds_cons, toolIds_cons] at h
      obtain ⟨h1, h2⟩ := List.cons.inj h
      rw [List.zipWith_cons_cons, toolIds_cons, toolIds_cons, ih us' h2]
      congr 1
      simp only [mergeTool]
      exact h1.symm

theorem zipWith_merge_duration :
    ∀ ts us : List ToolUseData, (∀ u ∈ us, (u.duration).isSome = true) →
      ∀ x ∈ List.zipWith mergeTool ts us, (x.duration).isSome = true := by
  intro ts
  induction ts with
  | nil =>
    intro us _ x hx
    simp at hx
  | cons t ts' ih =>
    intro us h x hx
    cases us with
    | nil => simp at hx
    | cons u us' =>
      rw [List.zipWith_cons_cons] at hx
      rcases List.mem_cons.mp hx with hx | hx
      · subst hx
        have hu := h u (by simp)
        cases hud : u.duration with
        | none => rw [hud] at hu; simp at hu
        | some d => simp [mergeTool, hud]
      · exact ih us' (fun v hv => h v (by simp [hv])) x hx

/-- Conjunct (c) of the id-uniqueness claim assembled: for matching
distinct-id start/end sequences from the initial state, the starts build the
group in order (durations still absent), and the ends seal exactly one group
block in which each id occurs exactly once, duration populated. -/
theorem tool_pairs_spec (ts us : List ToolUseData)
    (hne : ts ≠ []) (hnd : (toolIds ts).Nodup) (hids : toolIds ts = toolIds us)
    (hdus : ∀ u ∈ us, (u.duration).isSome = true) :
    (runChat (ts.map startEv) initialState).currentToolGroup = ts ∧
    (runChat (us.map endEv) (runChat (ts.map startEv) initialState)).currentToolGroup = [] ∧
    (runChat (us.map endEv) (runChat (ts.map startEv) initialState)).contentBlocks =
      [.tool_group (List.zipWith mergeTool ts us) 0] ∧
    toolIds (List.zipWith mergeTool ts us) = toolIds ts ∧
    (∀ x ∈ List.zipWith mergeTool ts us, (x.duration).isSome = true) := by
  obtain ⟨hg, ha, hb, _⟩ := runStarts_spec ts initialState (by decide)
    (by intro t' _ x hx; simp [initialState] at hx)
    (by intro t' _ x hx; simp [initialState] at hx)
    hnd
  have hg' : (runChat (ts.map startEv) initialState).currentToolGroup = ts := by
    rw [hg]
    rfl
  have ha' : (runChat (ts.map startEv) initialState).activeTools = ts := by
    rw [ha]
    rfl
  obtain ⟨eg, ea, eb⟩ := runEnds_spec ts us [] (runChat (ts.map startEv) initialState)
    (by rw [hg']; rfl) ha' hne (by simpa using hnd) hids
  refine ⟨hg', eg, ?_, toolIds_zipWith_merge ts us hids, zipWith_merge_duration ts us hdus⟩
  rw [eb, hb]
  rfl

/-- C6: for every sequence of tool events, the active tool group and every
sealed `tool_group` block contain each id at most once (the invariant is
preserved by every chat event); a second `tool_start` for an id already in
the group is idempotent; and for matching distinct-id start/end sequences
each id appears exactly once in the sealed group, its duration populated
(absent while only the starts have run, present after the ends). -/
theorem tool_id_uniqueness :
    (∀ (p : ChatPayload) (s : HookState), ToolInv s → ToolInv (handleChatPayload p s)) ∧
    (∀ (t : ToolUseData) (s : HookState), (∃ x ∈ s.currentToolGroup, x.id = t.id) →
      (handleToolStartAction (startEv t) s).currentToolGroup = s.currentToolGroup) ∧
    (∀ ts us : List ToolUseData,
      ts ≠ [] → (toolIds ts).Nodup → toolIds ts = toolIds us →
      (∀ u ∈ us, (u.duration).isSome = true) →
      (runChat (ts.map startEv) initialState).currentToolGroup = ts ∧
      (runChat (us.map endEv) (runChat (ts.map startEv) initialState)).currentToolGroup = [] ∧
      (runChat (us.map endEv) (runChat (ts.map startEv) initialState)).contentBlocks =
        [.tool_group (List.zipWith mergeTool ts us) 0] ∧
      toolIds (List.zipWith mergeTool ts us) = toolIds ts ∧
      (∀ x ∈ List.zipWith mergeTool ts us, (x.duration).isSome = true)) :=
  ⟨ToolInv_step, tool_start_idem, tool_pairs_spec⟩

/-- Witness for `tool_id_uniqueness` at concrete inputs: the invariant holds
of the initial state and is preserved by a start event; a duplicate start for
the already-present sample tool leaves the group unchanged; and the sample
start/end pair seals one group with the merged, duration-carrying tool. -/
theorem tool_id_uniqueness_witness :
    ToolInv initialState ∧
    ToolInv (handleChatPayload (startEv sampleTool) initialState) ∧
    (∃ x ∈ (runChat [startEv sampleTool] initialState).currentToolGroup,
      x.id = sampleTool.id) ∧
    (handleToolStartAction (startEv sampleTool)
        (runChat [startEv sampleTool] initialState)).currentToolGroup =
      (runChat [startEv sampleTool] initialState).currentToolGroup ∧
    (runChat ([sampleToolDone].map endEv)
        (runChat ([sampleTool].map startEv) initialState)).contentBlocks =
      [.tool_group (List.zipWith mergeTool [sampleTool] [sampleToolDone]) 0] := by
  have hinv : ToolInv initialState := by
    constructor
    · simp [toolIds, initialState]
    · intro b hb
      simp [initialState] at hb
  refine ⟨hinv, tool_id_uniqueness.1 (startEv sampleTool) initialState hinv, ?_, ?_, ?_⟩
  · exact ⟨sampleTool, by decide, rfl⟩
  · exact tool_id_uniqueness.2.1 sampleTool (runChat [startEv sampleTool] initialState)
      ⟨sampleTool, by decide, rfl⟩
  · exact (tool_id_uniqueness.2.2 [sampleTool] [sampleToolDone] (by decide) (by decide)
      (by decide) (by decide)).2.2.1

end ClaudeChat
